import Mathlib

/-!
Verification of the SQL sanitizer / executor / presenter tools of the
HCPMind multi-tool agent (`mutil_tool_agent/tools.py`).

The Python code is shallowly embedded:

* SQL text is modelled as `List Char`; Python's `str.replace` (literal,
  left-to-right, non-overlapping) on the two-character escape patterns is
  `replace2`; case-insensitive substring search (`"limit" in s.lower()`,
  `re.search(r"(?i)(update|...)", s)`) is `isInfL`.
* Values appearing in BigQuery rows are the variant type `Val`; a Python
  `datetime.datetime` is a subclass of `datetime.date`, so the
  `isinstance(value, datetime.date)` check in the code matches both the
  `vDate` and `vDatetime` constructors, which is reflected in `convVal`.
* The BigQuery client is an oracle parameter `exec? : List Char → ExecOutcome`:
  the code's `query(...).result()` either yields a schema and rows or raises
  an exception carrying a message.  `run_bigquery_validation` is total, which
  models the fact that the Python function catches every exception.
* The tool-context session state is an association list `StateMap`.
-/

namespace HCPMind

/-- Scalar values of a BigQuery result row (spec §3 "Row").  `vDatetime`
carries a date plus a time-of-day; in Python `datetime.datetime` is a
subclass of `datetime.date`. -/
inductive Val where
  | vNull : Val
  | vBool : Bool → Val
  | vInt : Int → Val
  | vStr : String → Val
  | vDate : Nat → Nat → Nat → Val
  | vDatetime : Nat → Nat → Nat → Nat → Nat → Nat → Val
deriving DecidableEq, Repr

/-- A result row: mapping from column name to scalar value, in column order. -/
def Row := List (String × Val)
deriving DecidableEq, Repr

/-- The session-state mapping of the tool context (`tool_context.state`). -/
def StateMap := List (String × List Row)
deriving DecidableEq, Repr

/-- Python dict assignment `state[k] = v`: replace the binding if the key is
present, otherwise append it. -/
def stateSet (k : String) (v : List Row) : StateMap → StateMap
  | [] => [(k, v)]
  | (k', v') :: rest =>
      if k' = k then (k, v) :: rest else (k', v') :: stateSet k v rest

/-! ### String helpers (Python `str` semantics on `List Char`) -/

/-- Python's `s.replace(ab, r)` for a two-character pattern `ab` and a
one-character replacement `r`: leftmost, non-overlapping. -/
def replace2 (a b r : Char) : List Char → List Char
  | [] => []
  | [c] => [c]
  | c :: d :: rest =>
      if c = a ∧ d = b then r :: replace2 a b r rest
      else c :: replace2 a b r (d :: rest)

/-- `isPrefL p s`: the lowercase word `p` is a prefix of `s` lowercased. -/
def isPrefL : List Char → List Char → Bool
  | [], _ => true
  | _ :: _, [] => false
  | a :: as, b :: bs => a = b.toLower && isPrefL as bs

/-- `isInfL p s`: the lowercase word `p` occurs in `s` case-insensitively;
this is Python's `p in s.lower()` for lowercase `p`. -/
def isInfL (p : List Char) : List Char → Bool
  | [] => p.isEmpty
  | c :: cs => isPrefL p (c :: cs) || isInfL p cs

/-- Case-sensitive prefix test. -/
def isPrefCS : List Char → List Char → Bool
  | [], _ => true
  | _ :: _, [] => false
  | a :: as, b :: bs => a = b && isPrefCS as bs

/-- Case-sensitive substring test (Python's `p in s`). -/
def isInfCS (p : List Char) : List Char → Bool
  | [] => p.isEmpty
  | c :: cs => isPrefCS p (c :: cs) || isInfCS p cs

/-- `hasPat a b s`: the two-character sequence `ab` occurs in `s`. -/
def hasPat (a b : Char) : List Char → Bool
  | [] => false
  | [_] => false
  | c :: d :: rest => (c = a && d = b) || hasPat a b (d :: rest)

/-! ### The SQL sanitizer (`cleanup_sql`, tools.py lines 256–275) -/

/-- `MAX_NUM_ROWS` (tools.py line 47). -/
def MAX_NUM_ROWS : Nat := 80

/-- The word scanned for by the limit check, lowercase. -/
def limitWord : List Char := ['l', 'i', 'm', 'i', 't']

/-- Steps 1–4 of `cleanup_sql`: the four literal escape replacements,
in the order the code applies them. -/
def applyEscapes (s : List Char) : List Char :=
  let s1 := replace2 '\\' '"' '"' s       -- sql_string.replace('\\"', '"')
  let s2 := replace2 '\\' '\n' '\n' s1    -- .replace("\\\n", "\n")
  let s3 := replace2 '\\' '\'' '\'' s2    -- .replace("\\'", "'")
  replace2 '\\' 'n' '\n' s3               -- .replace("\\n", "\n")

/-- The appended clause `" limit " + str(MAX_NUM_ROWS)`. -/
def limitClause : List Char := (" limit " ++ toString MAX_NUM_ROWS).toList

/-- `cleanup_sql` (tools.py lines 256–275): the four escape replacements,
then append `" limit 80"` unless `"limit"` already occurs case-insensitively. -/
def cleanup_sql (s : List Char) : List Char :=
  let s4 := applyEscapes s
  if isInfL limitWord s4 then s4 else s4 ++ limitClause

/-! ### The DML/DDL keyword gate (tools.py lines 284–290) -/

/-- The keyword alternatives of `re.search(r"(?i)(update|delete|drop|insert|create|alter|truncate|merge)", ...)`. -/
def dmlKeywords : List (List Char) :=
  ["update", "delete", "drop", "insert", "create", "alter", "truncate",
   "merge"].map String.toList

/-- Whether the regex keyword scan fires: some alternative occurs
case-insensitively anywhere in the string. -/
def containsKeyword (s : List Char) : Bool :=
  dmlKeywords.any fun k => isInfL k s

/-! ### Date formatting and value conversion (tools.py lines 296–309) -/

/-- Decimal digits of a positive number, most significant first; the first
argument is fuel (any bound on the number of divisions, e.g. the number
itself). -/
def natStrAux : Nat → Nat → List Char
  | _, 0 => []
  | 0, _ => []
  | n, fuel + 1 =>
      if n < 10 then [Char.ofNat (48 + n)]
      else natStrAux (n / 10) fuel ++ [Char.ofNat (48 + n % 10)]

/-- Decimal digits of a natural number, no leading zeros (Python `str(n)`
for `n ≥ 0`). -/
def natStr (n : Nat) : List Char :=
  if n = 0 then ['0'] else natStrAux n n

/-- Zero-pad on the left to width `k` (strftime's `%Y`/`%m`/`%d` padding). -/
def padZeros (k : Nat) (s : List Char) : List Char :=
  List.replicate (k - s.length) '0' ++ s

/-- `value.strftime("%Y-%m-%d")`: the date as `YYYY-MM-DD`. -/
def fmtDate (y m d : Nat) : String :=
  ⟨padZeros 4 (natStr y) ++ '-' :: padZeros 2 (natStr m) ++ '-' :: padZeros 2 (natStr d)⟩

/-- The per-value conversion of the row comprehension (tools.py lines 299–303):
`value if not isinstance(value, datetime.date) else value.strftime("%Y-%m-%d")`.
`datetime.datetime` is a subclass of `datetime.date`, so both date-like
constructors are reformatted; every other value passes through unchanged. -/
def convVal : Val → Val
  | .vDate y m d => .vStr (fmtDate y m d)
  | .vDatetime y m d _ _ _ => .vStr (fmtDate y m d)
  | v => v

/-- The row comprehension `{key: conv(value) for (key, value) in row.items()}`. -/
def convRow (row : Row) : Row :=
  row.map fun kv => (kv.1, convVal kv.2)

/-! ### The executor (`run_bigquery_validation`, tools.py lines 223–327) -/

/-- Outcome of submitting SQL to BigQuery: either a result with a schema
(list of field names; `results.schema`) and rows, or a raised exception
carrying a message (`str(e)`). -/
inductive ExecOutcome where
  | success : List String → List Row → ExecOutcome
  | raised : String → ExecOutcome
deriving DecidableEq, Repr

/-- The record `{"query_result": ..., "error_message": ...}` returned by
`run_bigquery_validation` (spec §3 "ExecutionResult"). -/
structure ExecutionResult where
  query_result : Option (List Row)
  error_message : Option String
deriving DecidableEq, Repr

/-- `run_bigquery_validation` (tools.py lines 223–327), with the BigQuery
client abstracted as the oracle `exec?` mapping the submitted SQL text to
its outcome.  Returns the result record together with the (possibly
updated) session state.  The function is total: the Python code catches
every exception from execution. -/
def run_bigquery_validation (sql : List Char)
    (exec? : List Char → ExecOutcome) (state : StateMap) :
    ExecutionResult × StateMap :=
  let cleaned := cleanup_sql sql
  if containsKeyword cleaned then
    ({ query_result := none,
       error_message := some "Invalid SQL: Contains disallowed DML/DDL operations." },
     state)
  else
    match exec? cleaned with
    | .success schema rows =>
        if schema.isEmpty then
          ({ query_result := none,
             error_message := some "Valid SQL. Query executed successfully (no results)." },
           state)
        else
          let rows' := (rows.map convRow).take MAX_NUM_ROWS
          ({ query_result := some rows', error_message := none },
           stateSet "query_result" rows' state)
    | .raised msg =>
        ({ query_result := none, error_message := some ("Invalid SQL: " ++ msg) },
         state)

/-! ### The SQL generator (`initial_bq_nl2sql`, tools.py lines 152–220)

Only the post-processing of the model response is relevant to the claims;
the response text (`response.text`, possibly absent) is a parameter. -/

/-- The record returned by `initial_bq_nl2sql` (spec §3 "GenerationResult"). -/
structure GenerationResult where
  explain : String
  sql : Option String
  sql_results : Option (List Row)
  nl_results : Option String
deriving DecidableEq, Repr

/-- Python's `s.replace(pat, rep)` for a non-empty pattern: leftmost,
non-overlapping occurrences; the fuel argument (instantiated with the
length of the subject) bounds the recursion. -/
def replaceStrAux (pat rep : List Char) : Nat → List Char → List Char
  | 0, s => s
  | _ + 1, [] => []
  | fuel + 1, c :: cs =>
      if isPrefCS pat (c :: cs) then
        rep ++ replaceStrAux pat rep fuel (cs.drop (pat.length - 1))
      else c :: replaceStrAux pat rep fuel cs

/-- Python `s.replace(pat, rep)` on strings. -/
def pyReplace (s pat rep : String) : String :=
  ⟨replaceStrAux pat.toList rep.toList s.toList.length s.toList⟩

/-- Python whitespace for `str.strip()`. -/
def isPySpace (c : Char) : Bool :=
  c = ' ' || c = '\t' || c = '\n' || c = '\r' || c = '\x0b' || c = '\x0c'

/-- Python `s.strip()`: drop whitespace from both ends. -/
def pyStrip (s : String) : String :=
  ⟨((s.toList.dropWhile isPySpace).reverse.dropWhile isPySpace).reverse⟩

/-- The response handling of `initial_bq_nl2sql` (tools.py lines 209–220):
`sql = response.text; if sql: sql = sql.replace("```sql", "").replace("```", "").strip()`,
then the record is assembled.  An absent response (`None`) stays `none`;
an empty response is falsy in Python, so it skips the cleanup and the
returned `sql` is the empty string, not `None`. -/
def initial_bq_nl2sql (question : String) (responseText : Option String) :
    GenerationResult :=
  let sql : Option String :=
    match responseText with
    | none => none
    | some s =>
        if s = "" then some s
        else some (pyStrip (pyReplace (pyReplace s "```sql" "") "```" ""))
  { explain := "Generated SQL for question: " ++ question,
    sql := sql, sql_results := none, nl_results := none }

/-! ### The tabular presenter (`display_results_as_table`, tools.py lines 329–415) -/

/-- The shape of the record handed to the presenters: either the executor's
record (keyed `query_result`) or the agent's record (keyed `sql_results`),
each alongside an optional `error_message`. -/
inductive ResultShape where
  | exec : Option (List Row) → Option String → ResultShape
  | gen : Option (List Row) → Option String → ResultShape
deriving DecidableEq, Repr

/-- The key dispatch of the presenters (tools.py lines 344–351): read the
rows from `query_result` or else from `sql_results`, plus `error_message`. -/
def extractRows : ResultShape → Option (List Row) × Option String
  | .exec qr em => (qr, em)
  | .gen sr em => (sr, em)

/-- Python `str(value)` for the row values that can appear. -/
def pyStr : Val → String
  | .vNull => "None"
  | .vBool true => "True"
  | .vBool false => "False"
  | .vInt n => if n < 0 then "-" ++ (⟨natStr n.natAbs⟩ : String) else ⟨natStr n.natAbs⟩
  | .vStr s => s
  | .vDate y m d => fmtDate y m d
  | .vDatetime y m d hh mm ss =>
      fmtDate y m d ++ " " ++ (⟨padZeros 2 (natStr hh)⟩ : String) ++ ":" ++
        (⟨padZeros 2 (natStr mm)⟩ : String) ++ ":" ++ (⟨padZeros 2 (natStr ss)⟩ : String)

/-- `str(row.get(header, ''))`: the stringified cell of `row` at column
`header`, the empty string when the column is absent. -/
def cellStr (row : Row) (header : String) : String :=
  match row.lookup header with
  | some v => pyStr v
  | none => ""

/-- The column choice (tools.py lines 359–368): `relevant_columns` filtered
to the known headers when provided and non-empty, all headers otherwise;
first 5 headers when the filter comes back empty. -/
def chooseHeaders (all_headers : List String) :
    Option (List String) → List String
  | some (c :: cs) =>
      let hs := (c :: cs).filter fun h => all_headers.contains h
      if hs.isEmpty then all_headers.take 5 else hs
  | _ => all_headers

/-- The column width (tools.py lines 370–379): the maximum of the header
length and the stringified length of the column's cell in every row. -/
def colWidth (rows : List Row) (header : String) : Nat :=
  rows.foldl (fun acc row => max acc (cellStr row header).length) header.length

/-- `f"{value:<{w}}"`: left-align and pad with spaces to width `w`. -/
def padTo (w : Nat) (v : String) : String :=
  v ++ (⟨List.replicate (w - v.length) ' '⟩ : String)

/-- The truncation step of a data cell (tools.py lines 399–402):
`value[:w-3] + "..."` when the value is longer than the column width.
(The branch is unreachable for the widths the presenter computes.) -/
def dataCellVal (w : Nat) (v : String) : String :=
  if w < v.length then (⟨v.toList.take (w - 3)⟩ : String) ++ "..." else v

/-- One rendered header cell: `f" {header:<{w}} |"`. -/
def headerCell (w : Nat) (header : String) : String :=
  " " ++ padTo w header ++ " |"

/-- One rendered data cell: truncation step, then `f" {value:<{w}} |"`. -/
def dataCell (w : Nat) (v : String) : String :=
  " " ++ padTo w (dataCellVal w v) ++ " |"

/-- The header row (tools.py lines 388–390). -/
def headerLine (rows : List Row) (headers : List String) : String :=
  headers.foldl (fun acc h => acc ++ headerCell (colWidth rows h) h) "|"

/-- One data row (tools.py lines 396–404). -/
def dataLine (rows : List Row) (headers : List String) (row : Row) : String :=
  headers.foldl (fun acc h => acc ++ dataCell (colWidth rows h) (cellStr row h)) "|"

/-- The border (tools.py line 385): `col_widths` is a dict keyed by header,
so `.values()` runs over the distinct headers in first-occurrence order. -/
def sepLine (widths : List Nat) : String :=
  "+" ++ String.intercalate "+"
    (widths.map fun w => (⟨List.replicate (w + 2) '-'⟩ : String)) ++ "+"

/-- `display_results_as_table` (tools.py lines 329–415).  The second
`if not rows` check of the code (line 356) repeats the first and is dead.
Python formats row counts with `str`, embedded here via `natStr`. -/
def display_results_as_table (final_result : ResultShape)
    (relevant_columns : Option (List String)) : String :=
  let rowsOpt := (extractRows final_result).1
  let errOpt := (extractRows final_result).2
  match rowsOpt with
  | none => "No results to display"
  | some [] => "No results to display"
  | some (r0 :: rest) =>
      let rows := r0 :: rest
      let all_headers := r0.map Prod.fst
      let headers := chooseHeaders all_headers relevant_columns
      let sep := sepLine ((headers.eraseDups).map (colWidth rows))
      let lines := [sep, headerLine rows headers, sep] ++
        rows.map (dataLine rows headers) ++ [sep]
      let summary := "\nTotal rows: " ++ (⟨natStr rows.length⟩ : String) ++
        (if headers.length < all_headers.length then
          "\nShowing " ++ (⟨natStr headers.length⟩ : String) ++ " of " ++
            (⟨natStr all_headers.length⟩ : String) ++ " columns"
         else "") ++
        (match errOpt with
         | some e => if e = "" then "" else "\nError: " ++ e
         | none => "")
      String.intercalate "\n" lines ++ summary

/-- Python `datetime.date` field values: year in 1..9999, month in 1..12,
day in 1..31 (the bounds `datetime.date` itself enforces). -/
def validDate (y m d : Nat) : Prop :=
  0 < y ∧ y ≤ 9999 ∧ 0 < m ∧ m ≤ 12 ∧ 0 < d ∧ d ≤ 31

instance (y m d : Nat) : Decidable (validDate y m d) := by
  unfold validDate; infer_instance

end HCPMind

/-! ## Helper lemmas -/

namespace HCPMind

theorem isPrefCS_append (p t : List Char) : isPrefCS p (p ++ t) = true := by
  induction p with
  | nil => rfl
  | cons c cs ih => simp [isPrefCS, ih]

theorem toList_append (a b : String) : (a ++ b).toList = a.toList ++ b.toList := by
  simp [String.toList]

theorem isInfL_nil (s : List Char) : isInfL [] s = true := by
  cases s <;> rfl

/-- The case-insensitive prefix test is unchanged by one escape replacement,
provided the word contains neither the pattern characters nor the
replacement character (all compared lowercased). -/
theorem isPrefL_replace2 (a b r : Char) (s : List Char) :
    ∀ p : List Char,
      (∀ c ∈ p, c ≠ a.toLower ∧ c ≠ b.toLower ∧ c ≠ r.toLower) →
      isPrefL p (replace2 a b r s) = isPrefL p s := by
  induction s using replace2.induct a b r with
  | case1 => intro p hp; rfl
  | case2 c => intro p hp; rfl
  | case3 c d rest hcd ih =>
      intro p hp
      obtain ⟨hc, hd⟩ := hcd
      subst hc; subst hd
      cases p with
      | nil => rfl
      | cons t ts =>
          have ht := hp t (List.mem_cons_self t ts)
          simp [replace2, isPrefL, ht.1, ht.2.2]
  | case4 c d rest hcd ih =>
      intro p hp
      cases p with
      | nil => rfl
      | cons t ts =>
          have hts : ∀ c ∈ ts, c ≠ a.toLower ∧ c ≠ b.toLower ∧ c ≠ r.toLower :=
            fun c hc => hp c (List.mem_cons_of_mem t hc)
          simp [replace2, hcd, isPrefL, ih ts hts]

/-- The case-insensitive substring test is unchanged by one escape
replacement, under the same side condition on the word searched for. -/
theorem isInfL_replace2 (a b r : Char) (p : List Char)
    (hp : ∀ c ∈ p, c ≠ a.toLower ∧ c ≠ b.toLower ∧ c ≠ r.toLower) :
    ∀ s : List Char, isInfL p (replace2 a b r s) = isInfL p s := by
  intro s
  induction s using replace2.induct a b r with
  | case1 => rfl
  | case2 c => rfl
  | case3 c d rest hcd ih =>
      obtain ⟨hc, hd⟩ := hcd
      subst hc; subst hd
      cases p with
      | nil => simp [isInfL_nil]
      | cons t ts =>
          have ht := hp t (List.mem_cons_self t ts)
          simp [replace2, isInfL, isPrefL, ht.1, ht.2.1, ht.2.2, ih]
  | case4 c d rest hcd ih =>
      cases p with
      | nil => simp [isInfL_nil]
      | cons t ts =>
          have hts : ∀ c ∈ ts, c ≠ a.toLower ∧ c ≠ b.toLower ∧ c ≠ r.toLower :=
            fun c hc => hp c (List.mem_cons_of_mem t hc)
          simp [replace2, hcd, isInfL, isPrefL, ih,
                isPrefL_replace2 a b r (d :: rest) ts hts]

/-- `"limit"` occurs in the escaped string iff it occurs in the original:
none of the four replacements can create or destroy an occurrence, since
the pattern characters and the replacement characters never occur in
`"limit"`. -/
theorem isInfL_applyEscapes (s : List Char) :
    isInfL limitWord (applyEscapes s) = isInfL limitWord s := by
  unfold applyEscapes
  rw [isInfL_replace2 '\\' 'n' '\n' limitWord (by decide),
      isInfL_replace2 '\\' '\'' '\'' limitWord (by decide),
      isInfL_replace2 '\\' '\n' '\n' limitWord (by decide),
      isInfL_replace2 '\\' '"' '"' limitWord (by decide)]

/-- An escape replacement whose pattern does not occur is the identity. -/
theorem replace2_id (a b r : Char) :
    ∀ s : List Char, hasPat a b s = false → replace2 a b r s = s := by
  intro s
  induction s using replace2.induct a b r with
  | case1 => intro _; rfl
  | case2 c => intro _; rfl
  | case3 c d rest hcd ih =>
      intro h
      obtain ⟨hc, hd⟩ := hcd
      subst hc; subst hd
      simp [hasPat] at h
  | case4 c d rest hcd ih =>
      intro h
      rw [hasPat] at h
      simp only [Bool.or_eq_false_iff] at h
      simp [replace2, hcd, ih h.2]

theorem isPrefCS_isPrefL (p : List Char) :
    ∀ s : List Char, isPrefCS p s = true →
      isPrefL (p.map Char.toLower) s = true := by
  induction p with
  | nil => intro s _; rfl
  | cons a as ih =>
      intro s h
      cases s with
      | nil => exact absurd h (by simp [isPrefCS])
      | cons b bs =>
          rw [isPrefCS] at h
          simp only [Bool.and_eq_true, decide_eq_true_eq] at h
          simp [isPrefL, h.1, ih bs h.2]

/-- A case-sensitive occurrence is in particular a case-insensitive one. -/
theorem isInfCS_isInfL (p : List Char) :
    ∀ s : List Char, isInfCS p s = true →
      isInfL (p.map Char.toLower) s = true := by
  intro s
  induction s with
  | nil =>
      intro h
      cases p with
      | nil => rfl
      | cons a as => exact absurd h (by simp [isInfCS])
  | cons c cs ih =>
      intro h
      rw [isInfCS] at h
      rw [isInfL]
      simp only [Bool.or_eq_true] at h ⊢
      rcases h with h | h
      · exact Or.inl (isPrefCS_isPrefL p _ h)
      · exact Or.inr (ih h)

theorem isPrefL_of_isPrefCS (p q : List Char) (hpq : isPrefCS p q = true) :
    ∀ s : List Char, isPrefL q s = true → isPrefL p s = true := by
  induction p generalizing q with
  | nil => intro s _; rfl
  | cons a as ih =>
      intro s h
      cases q with
      | nil => exact absurd hpq (by simp [isPrefCS])
      | cons b bs =>
          rw [isPrefCS] at hpq
          simp only [Bool.and_eq_true, decide_eq_true_eq] at hpq
          cases s with
          | nil => exact absurd h (by simp [isPrefL])
          | cons c cs =>
              rw [isPrefL] at h
              simp only [Bool.and_eq_true, decide_eq_true_eq] at h
              obtain ⟨hab, hpq2⟩ := hpq
              subst hab
              simp [isPrefL, h.1, ih bs hpq2 cs h.2]

/-- A substring occurrence of a word yields one of any of its prefixes. -/
theorem isInfL_of_isPrefCS (p q : List Char) (hpq : isPrefCS p q = true)
    (s : List Char) (h : isInfL q s = true) : isInfL p s = true := by
  induction s with
  | nil =>
      cases p with
      | nil => rfl
      | cons a as =>
          cases q with
          | nil => exact absurd hpq (by simp [isPrefCS])
          | cons b bs => exact absurd h (by simp [isInfL])
  | cons c cs ih =>
      rw [isInfL] at h ⊢
      simp only [Bool.or_eq_true] at h ⊢
      rcases h with h | h
      · exact Or.inl (isPrefL_of_isPrefCS p q hpq _ h)
      · exact Or.inr (ih h)

/-! ## Claim theorems -/

/-- C1: for every input string whose cleaned form contains one of the
disallowed keywords as a case-insensitive substring anywhere (also inside
identifiers), `run_bigquery_validation` returns the fixed rejection record
with `query_result` null, and never submits the query: the outcome is the
same for every execution oracle and the session state is untouched. -/
theorem run_bigquery_validation_rejects_dml (sql : List Char)
    (h : containsKeyword (cleanup_sql sql) = true) :
    ∀ (exec? : List Char → ExecOutcome) (state : StateMap),
      run_bigquery_validation sql exec? state =
        ({ query_result := none,
           error_message := some "Invalid SQL: Contains disallowed DML/DDL operations." },
         state) := by
  intro exec? state
  simp [run_bigquery_validation, h]

/-- Witness for C1 at the spec's example `"SELECT updated_at FROM t"`:
the scan flags `update` inside `updated_at` and rejects the query. -/
theorem run_bigquery_validation_rejects_dml_witness :
    containsKeyword (cleanup_sql "SELECT updated_at FROM t".toList) = true ∧
    run_bigquery_validation "SELECT updated_at FROM t".toList
        (fun _ => .raised "never reached") [] =
      ({ query_result := none,
         error_message := some "Invalid SQL: Contains disallowed DML/DDL operations." },
       []) :=
  ⟨by decide, run_bigquery_validation_rejects_dml _ (by decide) _ _⟩

/-- C2: for every input string, execution oracle and session state, the
record returned by `run_bigquery_validation` has exactly one of
`query_result` and `error_message` non-null. -/
theorem run_bigquery_validation_exactly_one (sql : List Char)
    (exec? : List Char → ExecOutcome) (state : StateMap) :
    (((run_bigquery_validation sql exec? state).1.query_result ≠ none) ∧
      (run_bigquery_validation sql exec? state).1.error_message = none) ∨
    ((run_bigquery_validation sql exec? state).1.query_result = none ∧
      (run_bigquery_validation sql exec? state).1.error_message ≠ none) := by
  cases h : containsKeyword (cleanup_sql sql) with
  | true => right; simp [run_bigquery_validation, h]
  | false =>
    cases hx : exec? (cleanup_sql sql) with
    | success schema rows =>
        cases hs : schema.isEmpty with
        | true => right; simp [run_bigquery_validation, h, hx, hs]
        | false => left; simp [run_bigquery_validation, h, hx, hs]
    | raised msg => right; simp [run_bigquery_validation, h, hx]

/-- C3: `cleanup_sql` appends exactly one `" limit 80"` suffix, and nothing
else beyond the four escape replacements, to every string lacking a
case-insensitive `"limit"`; a string containing `"limit"` anywhere in any
case is left unmodified by the limit-append step.  (The code tests the
string after the replacements; the `isInfL_applyEscapes` lemma shows the
replacements never create or destroy a `"limit"` occurrence, so the test
on the input string is equivalent.) -/
theorem cleanup_sql_limit_append (s : List Char) :
    limitClause = " limit 80".toList ∧
    (isInfL limitWord s = false →
      cleanup_sql s = applyEscapes s ++ limitClause) ∧
    (isInfL limitWord s = true → cleanup_sql s = applyEscapes s) := by
  refine ⟨by decide, ?_, ?_⟩ <;> intro h <;>
    simp [cleanup_sql, isInfL_applyEscapes, h]

/-- Witness for C3: one input without `"limit"` (the suffix is appended)
and one with it (the string passes through the limit step unmodified). -/
theorem cleanup_sql_limit_append_witness :
    (isInfL limitWord "SELECT a FROM t".toList = false ∧
      cleanup_sql "SELECT a FROM t".toList =
        applyEscapes "SELECT a FROM t".toList ++ limitClause) ∧
    (isInfL limitWord "SELECT a FROM t LIMIT 5".toList = true ∧
      cleanup_sql "SELECT a FROM t LIMIT 5".toList =
        applyEscapes "SELECT a FROM t LIMIT 5".toList) :=
  ⟨⟨by decide, (cleanup_sql_limit_append _).2.1 (by decide)⟩,
   ⟨by decide, (cleanup_sql_limit_append _).2.2 (by decide)⟩⟩

/-- C5: when the keyword gate passes and execution raises an exception with
message `msg`, `run_bigquery_validation` catches it and returns
`query_result` null with `error_message` equal to `"Invalid SQL: " ++ msg`
(in particular starting with `"Invalid SQL: "`), leaving the session state
untouched; no exception propagates, as the embedding is a total function. -/
theorem run_bigquery_validation_catches_exceptions (sql : List Char)
    (exec? : List Char → ExecOutcome) (state : StateMap) (msg : String)
    (hk : containsKeyword (cleanup_sql sql) = false)
    (hx : exec? (cleanup_sql sql) = .raised msg) :
    run_bigquery_validation sql exec? state =
      ({ query_result := none, error_message := some ("Invalid SQL: " ++ msg) },
       state) ∧
    isPrefCS "Invalid SQL: ".toList ("Invalid SQL: " ++ msg).toList = true := by
  constructor
  · simp [run_bigquery_validation, hk, hx]
  · rw [toList_append]
    exact isPrefCS_append _ _

/-- Witness for C5 at a query over a missing table. -/
theorem run_bigquery_validation_catches_exceptions_witness :
    containsKeyword (cleanup_sql "SELECT a FROM missing_tbl".toList) = false ∧
    (run_bigquery_validation "SELECT a FROM missing_tbl".toList
        (fun _ => .raised "Table not found") [] =
      ({ query_result := none,
         error_message := some ("Invalid SQL: " ++ "Table not found") }, []) ∧
    isPrefCS "Invalid SQL: ".toList
      ("Invalid SQL: " ++ "Table not found").toList = true) :=
  ⟨by decide,
   run_bigquery_validation_catches_exceptions _ _ _ _ (by decide) rfl⟩

/-- C7: `cleanup_sql` returns unchanged any string free of the four escape
sequences that already contains `"LIMIT 10"`: the replacements find no
pattern and the limit check finds `"limit"`, so nothing is appended. -/
theorem cleanup_sql_roundtrip (s : List Char)
    (h1 : hasPat '\\' '"' s = false) (h2 : hasPat '\\' '\n' s = false)
    (h3 : hasPat '\\' '\'' s = false) (h4 : hasPat '\\' 'n' s = false)
    (h5 : isInfCS "LIMIT 10".toList s = true) :
    cleanup_sql s = s := by
  have hesc : applyEscapes s = s := by
    simp only [applyEscapes]
    rw [replace2_id _ _ _ _ h1, replace2_id _ _ _ _ h2,
        replace2_id _ _ _ _ h3, replace2_id _ _ _ _ h4]
  have hlim : isInfL limitWord s = true := by
    have hlow := isInfCS_isInfL _ _ h5
    exact isInfL_of_isPrefCS limitWord ("LIMIT 10".toList.map Char.toLower)
      (by decide) s hlow
  simp [cleanup_sql, hesc, hlim]

/-- Witness for C7 at a plain query ending in `LIMIT 10`. -/
theorem cleanup_sql_roundtrip_witness :
    hasPat '\\' '"' "SELECT a FROM t LIMIT 10".toList = false ∧
    hasPat '\\' '\n' "SELECT a FROM t LIMIT 10".toList = false ∧
    hasPat '\\' '\'' "SELECT a FROM t LIMIT 10".toList = false ∧
    hasPat '\\' 'n' "SELECT a FROM t LIMIT 10".toList = false ∧
    isInfCS "LIMIT 10".toList "SELECT a FROM t LIMIT 10".toList = true ∧
    cleanup_sql "SELECT a FROM t LIMIT 10".toList =
      "SELECT a FROM t LIMIT 10".toList :=
  ⟨by decide, by decide, by decide, by decide, by decide,
   cleanup_sql_roundtrip _ (by decide) (by decide) (by decide) (by decide)
     (by decide)⟩


/-! ## Digit-length facts and the executor success branch -/

/-- A number below `10 ^ k` has at most `k` decimal digits. -/
theorem natStrAux_length (fuel : Nat) :
    ∀ n k, 0 < n → n ≤ fuel → n < 10 ^ k → (natStrAux n fuel).length ≤ k := by
  induction fuel with
  | zero => intro n k h1 h2 _; omega
  | succ fuel ih =>
      intro n k h1 h2 h3
      cases k with
      | zero => simp at h3; omega
      | succ k =>
          match n, h1 with
          | m + 1, _ =>
            have heq : natStrAux (m + 1) (fuel + 1) =
                if m + 1 < 10 then [Char.ofNat (48 + (m + 1))]
                else natStrAux ((m + 1) / 10) fuel ++
                  [Char.ofNat (48 + (m + 1) % 10)] := rfl
            rw [heq]
            split
            · simp
            · rename_i hge
              rw [List.length_append]
              simp only [List.length_singleton]
              have hdiv : 0 < (m + 1) / 10 := Nat.div_pos (by omega) (by omega)
              have hlt : (m + 1) / 10 < m + 1 := Nat.div_lt_self (by omega) (by omega)
              have hpow : (m + 1) / 10 < 10 ^ k := by
                rw [Nat.div_lt_iff_lt_mul (by omega)]
                calc m + 1 < 10 ^ (k + 1) := h3
                _ = 10 ^ k * 10 := by rw [pow_succ]
              have := ih ((m + 1) / 10) k hdiv (by omega) hpow
              omega

theorem natStr_length_le (n k : Nat) (h0 : 0 < k) (h : n < 10 ^ k) :
    (natStr n).length ≤ k := by
  unfold natStr
  split
  · simpa using h0
  · exact natStrAux_length n n k (by omega) (le_refl n) h

theorem padZeros_length (k : Nat) (s : List Char) (h : s.length ≤ k) :
    (padZeros k s).length = k := by
  simp [padZeros]
  omega

/-- A valid date renders as exactly 10 characters `YYYY-MM-DD`, with the
dashes at positions 4 and 7. -/
theorem fmtDate_length (y m d : Nat) (h : validDate y m d) :
    (fmtDate y m d).length = 10 := by
  obtain ⟨hy0, hy, hm0, hm, hd0, hd⟩ := h
  have ly : (natStr y).length ≤ 4 := natStr_length_le y 4 (by omega) (by omega)
  have lm : (natStr m).length ≤ 2 := natStr_length_le m 2 (by omega) (by omega)
  have ld : (natStr d).length ≤ 2 := natStr_length_le d 2 (by omega) (by omega)
  simp [fmtDate, String.length, padZeros_length _ _ ly, padZeros_length _ _ lm,
        padZeros_length _ _ ld]

/-- C4 (amended): when the keyword gate passes and execution succeeds with
a non-empty result schema, `run_bigquery_validation` returns `query_result`
as a non-null sequence of at most `MAX_NUM_ROWS` = 80 row-mappings with
`error_message` null; every date-typed field value becomes a 10-character
`YYYY-MM-DD` string (the claim said 8 characters; the counterexample shows
the string has length 10) and all other value types pass through unchanged. -/
theorem run_bigquery_validation_success_rows (sql : List Char) (exec? : List Char → ExecOutcome)
    (state : StateMap) (schema : List String) (rows : List Row)
    (hk : containsKeyword (cleanup_sql sql) = false)
    (hx : exec? (cleanup_sql sql) = .success schema rows)
    (hs : schema ≠ []) :
    (run_bigquery_validation sql exec? state).1 =
      { query_result := some ((rows.map convRow).take MAX_NUM_ROWS),
        error_message := none } ∧
    ((rows.map convRow).take MAX_NUM_ROWS).length ≤ MAX_NUM_ROWS ∧
    (∀ y m d, validDate y m d →
      convVal (.vDate y m d) = .vStr (fmtDate y m d) ∧
      (fmtDate y m d).length = 10) ∧
    (∀ v : Val, (∀ y m d, v ≠ .vDate y m d) →
      (∀ y m d hh mm ss, v ≠ .vDatetime y m d hh mm ss) → convVal v = v) := by
  have hs' : schema.isEmpty = false := by
    cases schema with
    | nil => exact absurd rfl hs
    | cons a as => rfl
  refine ⟨?_, ?_, ?_, ?_⟩
  · simp [run_bigquery_validation, hk, hx, hs']
  · exact List.length_take_le _ _
  · intro y m d hv
    exact ⟨rfl, fmtDate_length y m d hv⟩
  · intro v hd hdt
    cases v with
    | vNull => rfl
    | vBool b => rfl
    | vInt n => rfl
    | vStr s => rfl
    | vDate y m d => exact absurd rfl (hd y m d)
    | vDatetime y m d hh mm ss => exact absurd rfl (hdt y m d hh mm ss)

/-- Witness for C4 (amended) at a one-row result carrying a date. -/
theorem run_bigquery_validation_success_rows_witness :
    containsKeyword (cleanup_sql "SELECT birth_date FROM t".toList) = false ∧
    ((fun _ : List Char =>
        ExecOutcome.success ["birth_date"]
          [[("birth_date", Val.vDate 2024 1 1)]])
      (cleanup_sql "SELECT birth_date FROM t".toList) =
        .success ["birth_date"] [[("birth_date", Val.vDate 2024 1 1)]]) ∧
    (["birth_date"] : List String) ≠ [] ∧
    (run_bigquery_validation "SELECT birth_date FROM t".toList
        (fun _ => .success ["birth_date"] [[("birth_date", Val.vDate 2024 1 1)]])
        []).1 =
      { query_result :=
          some (([[("birth_date", Val.vDate 2024 1 1)]].map convRow).take
            MAX_NUM_ROWS),
        error_message := none } ∧
    validDate 2024 1 1 ∧
    convVal (.vDate 2024 1 1) = .vStr (fmtDate 2024 1 1) ∧
    (fmtDate 2024 1 1).length = 10 :=
  have h := run_bigquery_validation_success_rows "SELECT birth_date FROM t".toList
    (fun _ => .success ["birth_date"] [[("birth_date", Val.vDate 2024 1 1)]])
    [] ["birth_date"] [[("birth_date", Val.vDate 2024 1 1)]]
    (by decide) rfl (by decide)
  ⟨by decide, rfl, by decide, h.1, by decide,
   (h.2.2.1 2024 1 1 (by decide)).1, (h.2.2.1 2024 1 1 (by decide)).2⟩

/-- Counterexample to C4 as stated: at a concrete successful execution the
date value `2024-01-01` is converted to the string `"2024-01-01"`, which
has 10 characters, not 8. -/
theorem run_bigquery_validation_date_not_8_chars :
    (run_bigquery_validation "SELECT birth_date FROM tbl".toList
        (fun _ => .success ["birth_date"] [[("birth_date", Val.vDate 2024 1 1)]])
        []).1 =
      { query_result := some [[("birth_date", Val.vStr "2024-01-01")]],
        error_message := none } ∧
    ("2024-01-01" : String).length = 10 ∧
    ¬(("2024-01-01" : String).length = 8) := by
  refine ⟨?_, by decide, by decide⟩
  decide


/-- C10: the date check of the success branch is `isinstance(value,
datetime.date)`, and `datetime.datetime` is a subclass of `datetime.date`,
so every datetime-typed (timestamp) field value is also reformatted by
`convVal` to a date-only `YYYY-MM-DD` string, discarding its time
component. -/
theorem run_bigquery_validation_datetime_reformatted (sql : List Char)
    (exec? : List Char → ExecOutcome) (state : StateMap)
    (schema : List String) (rows : List Row)
    (hk : containsKeyword (cleanup_sql sql) = false)
    (hx : exec? (cleanup_sql sql) = .success schema rows)
    (hs : schema ≠ []) :
    (run_bigquery_validation sql exec? state).1.query_result =
      some ((rows.map convRow).take MAX_NUM_ROWS) ∧
    (∀ row : Row, convRow row = row.map fun kv => (kv.1, convVal kv.2)) ∧
    (∀ y m d hh mm ss,
      convVal (.vDatetime y m d hh mm ss) = .vStr (fmtDate y m d)) := by
  have hs' : schema.isEmpty = false := by
    cases schema with
    | nil => exact absurd rfl hs
    | cons a as => rfl
  refine ⟨?_, fun row => rfl, fun y m d hh mm ss => rfl⟩
  simp [run_bigquery_validation, hk, hx, hs']

/-- Witness for C10: a timestamp `2024-01-02 13:45:59` comes back as the
date-only string `"2024-01-02"`. -/
theorem run_bigquery_validation_datetime_reformatted_witness :
    containsKeyword (cleanup_sql "SELECT ts FROM t".toList) = false ∧
    (run_bigquery_validation "SELECT ts FROM t".toList
        (fun _ => .success ["ts"] [[("ts", Val.vDatetime 2024 1 2 13 45 59)]])
        []).1.query_result =
      some (([[("ts", Val.vDatetime 2024 1 2 13 45 59)]].map convRow).take
        MAX_NUM_ROWS) ∧
    convVal (.vDatetime 2024 1 2 13 45 59) = .vStr (fmtDate 2024 1 2) ∧
    fmtDate 2024 1 2 = "2024-01-02" :=
  have h := run_bigquery_validation_datetime_reformatted "SELECT ts FROM t".toList
    (fun _ => .success ["ts"] [[("ts", Val.vDatetime 2024 1 2 13 45 59)]])
    [] ["ts"] [[("ts", Val.vDatetime 2024 1 2 13 45 59)]]
    (by decide) rfl (by decide)
  ⟨by decide, h.1, h.2.2 2024 1 2 13 45 59, by decide⟩

/-- C6 (amended): when the completion returns no text, `initial_bq_nl2sql`
returns `sql` null, the fixed template explanation, and null
`sql_results`/`nl_results`; when the completion returns empty text the
record is the same except that `sql` is the empty string (Python treats
`""` as falsy and skips the cleanup, but the returned value is `""`, not
`None` as the claim stated). -/
theorem initial_bq_nl2sql_no_text (question : String) :
    (initial_bq_nl2sql question none).sql = none ∧
    (initial_bq_nl2sql question none).explain =
      "Generated SQL for question: " ++ question ∧
    (initial_bq_nl2sql question none).sql_results = none ∧
    (initial_bq_nl2sql question none).nl_results = none ∧
    (initial_bq_nl2sql question (some "")).sql = some "" ∧
    (initial_bq_nl2sql question (some "")).explain =
      "Generated SQL for question: " ++ question ∧
    (initial_bq_nl2sql question (some "")).sql_results = none ∧
    (initial_bq_nl2sql question (some "")).nl_results = none := by
  refine ⟨rfl, rfl, rfl, rfl, ?_, rfl, rfl, rfl⟩
  simp [initial_bq_nl2sql]

/-- Counterexample to C6 as stated: for an empty completion the returned
`sql` is the empty string, which is not null. -/
theorem initial_bq_nl2sql_empty_not_null :
    (initial_bq_nl2sql "q" (some "")).sql = some "" ∧
    (initial_bq_nl2sql "q" (some "")).sql ≠ none := by
  constructor
  · simp [initial_bq_nl2sql]
  · simp [initial_bq_nl2sql]

/-! ## The tabular presenter -/

theorem foldl_max_init (f : Row → Nat) (l : List Row) :
    ∀ init, init ≤ l.foldl (fun a x => max a (f x)) init := by
  induction l with
  | nil => intro init; exact le_refl _
  | cons x xs ih =>
      intro init
      exact le_trans (le_max_left _ _) (ih (max init (f x)))

theorem foldl_max_mem (f : Row → Nat) (l : List Row) (x : Row) (hx : x ∈ l) :
    ∀ init, f x ≤ l.foldl (fun a y => max a (f y)) init := by
  induction l with
  | nil => cases hx
  | cons y ys ih =>
      intro init
      rcases List.mem_cons.mp hx with h | h
      · subst h
        exact le_trans (le_max_right _ _) (foldl_max_init f ys _)
      · exact ih h _

/-- The computed column width is at least the header length. -/
theorem header_le_colWidth (rows : List Row) (header : String) :
    header.length ≤ colWidth rows header :=
  foldl_max_init (fun row => (cellStr row header).length) rows _

/-- The computed column width is at least every cell length in the column. -/
theorem cell_le_colWidth (rows : List Row) (header : String) (row : Row)
    (hrow : row ∈ rows) :
    (cellStr row header).length ≤ colWidth rows header :=
  foldl_max_mem (fun row => (cellStr row header).length) rows row hrow _

theorem mk_length (l : List Char) : (⟨l⟩ : String).length = l.length := rfl

theorem append_length (a b : String) :
    (a ++ b).length = a.length + b.length :=
  List.length_append a.data b.data

theorem padTo_length (w : Nat) (v : String) (h : v.length ≤ w) :
    (padTo w v).length = w := by
  simp only [padTo, append_length, mk_length, List.length_replicate]
  have hv : v.length = v.data.length := rfl
  omega

theorem headerCell_length (w : Nat) (header : String) (h : header.length ≤ w) :
    (headerCell w header).length = w + 3 := by
  have h1 : (" " : String).length = 1 := rfl
  have h2 : (" |" : String).length = 2 := rfl
  simp only [headerCell, append_length, padTo_length w header h, h1, h2]
  omega

theorem dataCellVal_id (w : Nat) (v : String) (h : v.length ≤ w) :
    dataCellVal w v = v := by
  simp [dataCellVal]
  omega

theorem dataCell_length (w : Nat) (v : String) (h : v.length ≤ w) :
    (dataCell w v).length = w + 3 := by
  have h1 : (" " : String).length = 1 := rfl
  have h2 : (" |" : String).length = 2 := rfl
  simp only [dataCell, dataCellVal_id w v h, append_length,
    padTo_length w v h, h1, h2]
  omega

/-- C9: every computed column width dominates the stringified length of
every cell in that column, so the truncation step of
`display_results_as_table` is the identity on every cell it renders and
each cell value appears in full. -/
theorem display_no_truncation (rows : List Row) (header : String) (row : Row)
    (hrow : row ∈ rows) :
    (cellStr row header).length ≤ colWidth rows header ∧
    dataCellVal (colWidth rows header) (cellStr row header) =
      cellStr row header ∧
    dataCell (colWidth rows header) (cellStr row header) =
      " " ++ padTo (colWidth rows header) (cellStr row header) ++ " |" := by
  have hle := cell_le_colWidth rows header row hrow
  exact ⟨hle, dataCellVal_id _ _ hle, by
    simp [dataCell, dataCellVal_id _ _ hle]⟩

/-- Witness for C9 on a two-row table. -/
theorem display_no_truncation_witness :
    (([("a", Val.vStr "x")] : Row) ∈
      ([[("a", Val.vStr "x")], [("a", Val.vInt 123)]] : List Row)) ∧
    ((cellStr [("a", Val.vStr "x")] "a").length ≤
      colWidth [[("a", Val.vStr "x")], [("a", Val.vInt 123)]] "a" ∧
    dataCellVal (colWidth [[("a", Val.vStr "x")], [("a", Val.vInt 123)]] "a")
        (cellStr [("a", Val.vStr "x")] "a") =
      cellStr [("a", Val.vStr "x")] "a" ∧
    dataCell (colWidth [[("a", Val.vStr "x")], [("a", Val.vInt 123)]] "a")
        (cellStr [("a", Val.vStr "x")] "a") =
      " " ++ padTo (colWidth [[("a", Val.vStr "x")], [("a", Val.vInt 123)]] "a")
        (cellStr [("a", Val.vStr "x")] "a") ++ " |") :=
  ⟨by decide,
   display_no_truncation [[("a", Val.vStr "x")], [("a", Val.vInt 123)]] "a"
     [("a", Val.vStr "x")] (by decide)⟩

/-- C8: `display_results_as_table` returns the fixed string
`"No results to display"` for an absent or empty row list; on a non-empty
row list the rendered header cell and every rendered data cell of a column
have the same character width (the column width plus 3); and a requested
column subset sharing no names with the row keys falls back to the first 5
keys of the first row. -/
theorem display_table_props :
    (∀ (fr : ResultShape) (cols : Option (List String)),
      ((extractRows fr).1 = none ∨ (extractRows fr).1 = some []) →
      display_results_as_table fr cols = "No results to display") ∧
    (∀ (r0 : Row) (rest : List Row) (cols : Option (List String)),
      ∀ h ∈ chooseHeaders (r0.map Prod.fst) cols,
        (headerCell (colWidth (r0 :: rest) h) h).length =
          colWidth (r0 :: rest) h + 3 ∧
        ∀ row ∈ r0 :: rest,
          (dataCell (colWidth (r0 :: rest) h) (cellStr row h)).length =
            colWidth (r0 :: rest) h + 3) ∧
    (∀ (all_headers : List String) (c : String) (cs : List String),
      (c :: cs).filter (fun h => all_headers.contains h) = [] →
      chooseHeaders all_headers (some (c :: cs)) = all_headers.take 5) := by
  refine ⟨?_, ?_, ?_⟩
  · intro fr cols h
    rcases h with h | h <;> simp [display_results_as_table, h]
  · intro r0 rest cols h _
    refine ⟨headerCell_length _ _ (header_le_colWidth _ _), ?_⟩
    intro row hrow
    exact dataCell_length _ _ (cell_le_colWidth _ _ row hrow)
  · intro all_headers c cs h
    simp only [chooseHeaders]
    rw [h]
    rfl

/-- Witness for C8: an empty result, a concrete two-column table, and a
disjoint requested column subset. -/
theorem display_table_props_witness :
    display_results_as_table (.exec none none) none = "No results to display" ∧
    ("a" ∈ chooseHeaders
      (([("a", Val.vStr "x"), ("b", Val.vInt 12)] : Row).map Prod.fst) none) ∧
    (headerCell
        (colWidth ([[("a", Val.vStr "x"), ("b", Val.vInt 12)],
          [("a", Val.vStr "long"), ("b", Val.vNull)]] : List Row) "a") "a").length =
      colWidth ([[("a", Val.vStr "x"), ("b", Val.vInt 12)],
        [("a", Val.vStr "long"), ("b", Val.vNull)]] : List Row) "a" + 3 ∧
    (dataCell
        (colWidth ([[("a", Val.vStr "x"), ("b", Val.vInt 12)],
          [("a", Val.vStr "long"), ("b", Val.vNull)]] : List Row) "a")
        (cellStr ([("a", Val.vStr "x"), ("b", Val.vInt 12)] : Row) "a")).length =
      colWidth ([[("a", Val.vStr "x"), ("b", Val.vInt 12)],
        [("a", Val.vStr "long"), ("b", Val.vNull)]] : List Row) "a" + 3 ∧
    ((["nope", "missing"] : List String).filter
      (fun h => (["a", "b"] : List String).contains h) = [] ∧
    chooseHeaders (["a", "b"] : List String) (some ["nope", "missing"]) =
      (["a", "b"] : List String).take 5) :=
  have h2 := display_table_props.2.1
    ([("a", Val.vStr "x"), ("b", Val.vInt 12)] : Row)
    [[("a", Val.vStr "long"), ("b", Val.vNull)]] none "a" (by decide)
  ⟨display_table_props.1 (.exec none none) none (Or.inl rfl),
   by decide,
   h2.1,
   h2.2 ([("a", Val.vStr "x"), ("b", Val.vInt 12)] : Row) (by decide),
   by decide,
   display_table_props.2.2 ["a", "b"] "nope" ["missing"] (by decide)⟩

end HCPMind
